import Mathlib

/-!
Verification of the armv7 paging subsystem (src/src/structures/paging.rs and
src/src/lib.rs) against its specification.

Shallow embedding conventions:
* `u32` values (addresses, descriptors, attribute words) are `Nat`, with an
  explicit `% 2 ^ 32` wherever the Rust arithmetic can wrap, and `< 2 ^ 32`
  hypotheses standing in for the `u32` type bound where it matters.
* `u8` list elements are `Nat` with a `< 256` hypothesis.
* `VirtualAddress`, `PhysicalAddress`, `MemoryAttributes`,
  `TranslationTableDescriptor` and `PageTableDescriptor` are `repr(transparent)`
  wrappers around `u32` in the source, so they are all embedded as plain `Nat`.
* Fallible functions (`Result<T, PageError>`) become `Except PageError Nat`.
* The translation table (4096 descriptors indexed by `usize`) is embedded as a
  function `Nat → Nat`; theorems about `do_mapping` carry the hypotheses that
  keep every Rust array index in bounds, which is the regime in which the Rust
  code runs without panicking.
-/

/-- Bit positions of the `ATTRIBUTES` register_bitfields in paging.rs:
PXN at offset 0, 1 bit. -/
def ATTRIBUTES.PXN : Nat := 0b1 <<< 0

/-- B at offset 2, 1 bit. -/
def ATTRIBUTES.B : Nat := 0b1 <<< 2

/-- C at offset 3, 1 bit. -/
def ATTRIBUTES.C : Nat := 0b1 <<< 3

/-- XN at offset 4, 1 bit. -/
def ATTRIBUTES.XN : Nat := 0b1 <<< 4

/-- DOMAIN at offset 5, 4 bits. -/
def ATTRIBUTES.DOMAIN : Nat := 0b1111 <<< 5

/-- AP at offset 10, 2 bits. -/
def ATTRIBUTES.AP : Nat := 0b11 <<< 10

/-- TEX at offset 12, 3 bits. -/
def ATTRIBUTES.TEX : Nat := 0b111 <<< 12

/-- AP2 at offset 15, 1 bit. -/
def ATTRIBUTES.AP2 : Nat := 0b1 <<< 15

/-- S at offset 16, 1 bit. -/
def ATTRIBUTES.S : Nat := 0b1 <<< 16

/-- NG at offset 17, 1 bit. -/
def ATTRIBUTES.NG : Nat := 0b1 <<< 17

/-- NS at offset 19, 1 bit. -/
def ATTRIBUTES.NS : Nat := 0b1 <<< 19

/-- The field value `ATTRIBUTES::AP::PrivAccess = 0b01`, placed at the AP
offset (10). -/
def ATTRIBUTES.AP.PrivAccess : Nat := 0b01 <<< 10

/-- The field value `ATTRIBUTES::XN::Enable = 0b1`, placed at the XN offset (4). -/
def ATTRIBUTES.XN.Enable : Nat := 0b1 <<< 4

/-- Union of all defined attribute bit positions of `MemoryAttributes`
(its internal layout, documented in paging.rs: PXN, B, C, XN, DOMAIN, AP, TEX,
AP2, S, nG, NS; bits 1, 9, 18 and everything from 20 up are reserved as zero).
Numerically this mask is 0xbfdfd. -/
def MemoryAttributes.DEFINED_MASK : Nat :=
  ATTRIBUTES.PXN ||| ATTRIBUTES.B ||| ATTRIBUTES.C ||| ATTRIBUTES.XN |||
  ATTRIBUTES.DOMAIN ||| ATTRIBUTES.AP ||| ATTRIBUTES.TEX ||| ATTRIBUTES.AP2 |||
  ATTRIBUTES.S ||| ATTRIBUTES.NG ||| ATTRIBUTES.NS

/-- A `MemoryAttributes` word is canonical when only defined attribute bit
positions are set (the documented invariant of the struct). -/
abbrev MemoryAttributes.canonical (a : Nat) : Prop :=
  a &&& MemoryAttributes.DEFINED_MASK = a

/-- The error enum `PageError` of paging.rs. -/
inductive PageError where
  | AlignError
  | TranslationError
  | DomainError
  | PermissionError
  | InvalidMemory
  | NotInRange
  | IndexError
deriving DecidableEq

/-- `TranslationTableType`: the kinds of first-level descriptors. -/
inductive TranslationTableType where
  | Invalid
  | Page
  | Section
  | Supersection
deriving DecidableEq

/-- `TranslationTableType::align`: the alignment mask required of the physical
address for each first-level descriptor type. -/
def TranslationTableType.align : TranslationTableType → Nat
  | .Invalid => 0
  | .Page => 0x3ff
  | .Section => 0xfffff
  | .Supersection => 0xfffff

/-- `PageTableType`: the kinds of second-level descriptors. -/
inductive PageTableType where
  | Invalid
  | SmallPage
  | LargePage
deriving DecidableEq

/-- `PageTableType::align`. -/
def PageTableType.align : PageTableType → Nat
  | .Invalid => 0
  | .SmallPage => 0xfff
  | .LargePage => 0xffff

/-- `Alignable::is_aligned` for addresses: `(self.0 & mask) == 0`. -/
def is_aligned (addr mask : Nat) : Bool :=
  addr &&& mask == 0

/-- `Alignable::check_align`: `Ok(())` when aligned, else `Err(AlignError)`. -/
def check_align (addr mask : Nat) : Except PageError Unit :=
  if is_aligned addr mask then Except.ok () else Except.error PageError.AlignError

/-- `TranslationTableDescriptor::get_type`: decode the type tag from bits [1:0],
with bit 18 separating section from supersection. -/
def TranslationTableDescriptor.get_type (d : Nat) : TranslationTableType :=
  match d &&& 0b11 with
  | 0b00 => TranslationTableType.Invalid
  | 0b01 => TranslationTableType.Page
  | _ =>
    match d &&& 0x40000 with
    | 0b0 => TranslationTableType.Section
    | _ => TranslationTableType.Supersection

/-- `PageTableDescriptor::get_type`: `00` invalid, `01` large page, `1x` small
page. -/
def PageTableDescriptor.get_type (d : Nat) : PageTableType :=
  match d &&& 0b11 with
  | 0b00 => PageTableType.Invalid
  | 0b01 => PageTableType.LargePage
  | _ => PageTableType.SmallPage

/-- `MemoryAttributes::to_table_descriptor`: encode canonical attributes into a
first-level descriptor's layout and stamp the type tag bits. -/
def MemoryAttributes.to_table_descriptor (a : Nat) :
    TranslationTableType → Nat
  | .Invalid => 0
  | .Page => (1 ||| (a &&& 0x1e0)) ||| ((a &&& 1) <<< 2)
  | .Section => a ||| 0x2
  | .Supersection => 0x40002 ||| (a &&& 0xffc1f)

/-- `MemoryAttributes::to_page_descriptor`: encode canonical attributes into a
second-level descriptor's layout and stamp the type tag bits. -/
def MemoryAttributes.to_page_descriptor (a : Nat) : PageTableType → Nat
  | .Invalid => 0
  | .SmallPage =>
    ((0b10 ||| (a &&& 0b1100)) ||| ((a &&& 0x10) >>> 4)) |||
      ((a &&& 0x3fc00) >>> (10 - 4))
  | .LargePage =>
    (((0b1 ||| (a &&& 0b1100)) ||| ((a &&& 0xc00) >>> (10 - 4))) |||
      ((a &&& 0x38000) >>> (15 - 9))) ||| ((a &&& 0x10) <<< (15 - 4))

/-- `MemoryAttributes::from_table_descriptor`: decode the canonical attribute
bits out of a first-level descriptor (`None` for an invalid descriptor). -/
def MemoryAttributes.from_table_descriptor (d : Nat) : Option Nat :=
  match TranslationTableDescriptor.get_type d with
  | TranslationTableType.Invalid => none
  | TranslationTableType.Page =>
    some (((d &&& 0x01e0) ||| ((d >>> 2) &&& 1)) ||| ((d &&& 0x8) <<< 16))
  | TranslationTableType.Section => some (d &&& 0xbfdfd)
  | TranslationTableType.Supersection => some (d &&& 0xdfa1d)

/-- `TranslationTableDescriptor::new`: `Invalid` yields the all-zero
descriptor; otherwise the physical address is checked against the type's
alignment mask and or-ed into the encoded attributes. -/
def TranslationTableDescriptor.new (tabletype : TranslationTableType)
    (addr : Nat) (attributes : Nat) : Except PageError Nat :=
  if tabletype = TranslationTableType.Invalid then Except.ok 0
  else
    match check_align addr tabletype.align with
    | Except.error e => Except.error e
    | Except.ok _ =>
      Except.ok (MemoryAttributes.to_table_descriptor attributes tabletype ||| addr)

/-- Modelled from the spec: `TranslationTableDescriptor::get_addr` is called
for by §4.3 of the specification but is not present under src/ (only
`PageTableDescriptor::get_addr` is). Per the spec it fails with
`InvalidMemory` if the descriptor's type is `Invalid` and otherwise masks off
the attribute/tag bits using the type's alignment mask to recover the clean
physical base. -/
def TranslationTableDescriptor.get_addr (d : Nat) : Except PageError Nat :=
  let table_type := TranslationTableDescriptor.get_type d
  if table_type = TranslationTableType.Invalid then
    Except.error PageError.InvalidMemory
  else
    Except.ok (d &&& (0xffffffff ^^^ table_type.align))

/-- `PageTableDescriptor::new`. -/
def PageTableDescriptor.new (pagetype : PageTableType) (addr : Nat)
    (attributes : Nat) : Except PageError Nat :=
  if pagetype = PageTableType.Invalid then Except.ok 0
  else
    match check_align addr pagetype.align with
    | Except.error e => Except.error e
    | Except.ok _ =>
      Except.ok (MemoryAttributes.to_page_descriptor attributes pagetype ||| addr)

/-- `PageTableDescriptor::get_addr`: `self.0 & !page_type.align()`, failing
with `InvalidMemory` on an invalid descriptor (`!` is bitwise not on u32). -/
def PageTableDescriptor.get_addr (d : Nat) : Except PageError Nat :=
  let page_type := PageTableDescriptor.get_type d
  if page_type = PageTableType.Invalid then
    Except.error PageError.InvalidMemory
  else
    Except.ok (d &&& (0xffffffff ^^^ page_type.align))

/-- `get_phys_addr`: the hardware translation operation `get_phys_frame` is an
inline-assembly coprocessor instruction pair, so its returned register value is
taken as the parameter `hw` (every u32 value is a possible hardware result).
The Rust code masks the result with `!0xfff` and then tests the low bit of the
masked value. -/
def get_phys_addr (virt_addr hw : Nat) : Except PageError Nat :=
  let frame_offset := virt_addr &&& 0xfff
  let output := hw &&& (0xffffffff ^^^ 0xfff)
  if output &&& 0b1 = 0 then Except.ok (output ||| frame_offset)
  else Except.error PageError.TranslationError

/-- `OffsetMapping`: a linear virtual–physical window. -/
structure OffsetMapping where
  virt_start : Nat
  phys_start : Nat
  size : Nat
deriving DecidableEq

/-- `OffsetMapping::virt_addr_in_range` (upper bound inclusive, as in the
source; the sum is u32 addition). -/
def OffsetMapping.virt_addr_in_range (m : OffsetMapping) (virt_addr : Nat) : Bool :=
  if virt_addr < m.virt_start then false
  else if virt_addr > (m.virt_start + m.size) % 2 ^ 32 then false
  else true

/-- `OffsetMapping::phys_addr_in_range`. -/
def OffsetMapping.phys_addr_in_range (m : OffsetMapping) (phys_addr : Nat) : Bool :=
  if phys_addr < m.phys_start then false
  else if phys_addr > (m.phys_start + m.size) % 2 ^ 32 then false
  else true

/-- `OffsetMapping::convert_virt_addr`: virtual to physical. -/
def OffsetMapping.convert_virt_addr (m : OffsetMapping) (vaddr : Nat) :
    Except PageError Nat :=
  if !(m.virt_addr_in_range vaddr) then Except.error PageError.NotInRange
  else Except.ok ((m.phys_start + (vaddr - m.virt_start)) % 2 ^ 32)

/-- `OffsetMapping::convert_phys_addr`: physical to virtual. -/
def OffsetMapping.convert_phys_addr (m : OffsetMapping) (paddr : Nat) :
    Except PageError Nat :=
  if !(m.phys_addr_in_range paddr) then Except.error PageError.NotInRange
  else Except.ok ((m.virt_start + (paddr - m.phys_start)) % 2 ^ 32)

/-- `DeviceVmemMapper`: a 16MB-aligned virtual base and the list of leading
bytes (u8) of the device physical addresses. -/
structure DeviceVmemMapper where
  base_address : Nat
  device_base_addresses : List Nat
deriving DecidableEq

/-- `DeviceVmemMapper::new`: requires the base aligned to 16MB
(mask 0xffffff). -/
def DeviceVmemMapper.new (base_address : Nat) (device_base_addresses : List Nat) :
    Except PageError DeviceVmemMapper :=
  match check_align base_address 0xffffff with
  | Except.error e => Except.error e
  | Except.ok _ => Except.ok ⟨base_address, device_base_addresses⟩

/-- `DeviceVmemMapper::lookup`: reverse lookup of a virtual address from a
physical one. `phys_index as u8` is the truncating u8 cast. -/
def DeviceVmemMapper.lookup (m : DeviceVmemMapper) (phys_addr : Nat) : Option Nat :=
  let phys_index := phys_addr >>> 24
  match m.device_base_addresses.findIdx? (fun y => y == phys_index % 2 ^ 8) with
  | none => none
  | some index =>
    let naked_phys_addr := phys_addr &&& 0xffffff
    let out := (m.base_address + (index <<< 24)) % 2 ^ 32
    some (out ||| naked_phys_addr)

/-- Modelled from the spec: `VirtualAddress::translation_table_index` is called
by `do_mapping` but is not defined under src/. Per §3 and the glossary the
first-level translation table maps 1MB regions over the whole 4GB space, so
the index of a virtual address is the address divided by 1MB; this agrees with
`VirtualAddress::base_table_index` in src/src/lib.rs (`self.0 >> 20`). -/
def VirtualAddress.translation_table_index (v : Nat) : Nat :=
  v >>> 20

/-- The attribute word built by `do_mapping`:
`ATTRIBUTES::AP::PrivAccess + ATTRIBUTES::XN::Enable` (FieldValue addition ors
the field values together). -/
def DeviceVmemMapper.do_mapping_attributes : Nat :=
  ATTRIBUTES.AP.PrivAccess ||| ATTRIBUTES.XN.Enable

/-- The inner loop of `do_mapping` (`for index in 0..15`): writes `rem` more
`Section` descriptors, the next one at table slot `tt_index + index` with
physical base `device_base + 0x100000 * index`, propagating any constructor
error. The table is a total map from index to descriptor word. -/
def DeviceVmemMapper.write_sections (device_base attributes tt_index : Nat) :
    Nat → Nat → (Nat → Nat) → Except PageError (Nat → Nat)
  | _, 0, table => Except.ok table
  | index, rem + 1, table =>
    match TranslationTableDescriptor.new TranslationTableType.Section
        ((device_base + 0x100000 * index) % 2 ^ 32) attributes with
    | Except.error e => Except.error e
    | Except.ok d =>
      DeviceVmemMapper.write_sections device_base attributes tt_index
        (index + 1) rem (Function.update table (tt_index + index) d)

/-- The outer loop of `do_mapping`: one 16MB slot (15 one-MB sections) per
device byte, advancing the virtual base address by 16MB each time (u32
addition). -/
def DeviceVmemMapper.do_mapping_go :
    List Nat → Nat → (Nat → Nat) → Except PageError (Nat → Nat)
  | [], _, table => Except.ok table
  | addr :: rest, base_addr, table =>
    let tt_index := VirtualAddress.translation_table_index base_addr
    let device_base := addr <<< 24
    match DeviceVmemMapper.write_sections device_base
        DeviceVmemMapper.do_mapping_attributes tt_index 0 15 table with
    | Except.error e => Except.error e
    | Except.ok table2 =>
      DeviceVmemMapper.do_mapping_go rest ((base_addr + 0x1000000) % 2 ^ 32) table2

/-- `DeviceVmemMapper::do_mapping` over an embedded translation table. -/
def DeviceVmemMapper.do_mapping (m : DeviceVmemMapper) (base_table : Nat → Nat) :
    Except PageError (Nat → Nat) :=
  DeviceVmemMapper.do_mapping_go m.device_base_addresses m.base_address base_table

/-- `TRANSLATION_TABLE_SIZE` (paging.rs). -/
def TRANSLATION_TABLE_SIZE : Nat := 4096

/-- `PAGE_TABLE_SIZE` (paging.rs). -/
def PAGE_TABLE_SIZE : Nat := 256

/-- `VirtualAddress::from_indices` (lib.rs): builds `0xXXXY_YZZZ` from the
translation table index, the page table index and the offset, rejecting
out-of-range components (note the strict `offset >= 0xfff` rejection). -/
def VirtualAddress.from_indices (translation_index page_index offset : Nat) :
    Option Nat :=
  if translation_index ≥ TRANSLATION_TABLE_SIZE ∨ page_index ≥ PAGE_TABLE_SIZE ∨
      offset ≥ 0xfff then
    none
  else
    some (((translation_index <<< 20) ||| (page_index <<< 12)) ||| offset)

/-- `VirtualAddress::base_table_index`: divide by 1MB. -/
def VirtualAddress.base_table_index (v : Nat) : Nat :=
  v >>> 20

/-- `VirtualAddress::page_table_index`. -/
def VirtualAddress.page_table_index (v : Nat) : Nat :=
  (v &&& 0xfffff) >>> 12

/-!
Generic bit-manipulation toolkit used by the proofs below.
-/

/-- Masking a right shift can be pushed through the shift. -/
theorem shiftRight_and_eq (x k m : Nat) :
    (x >>> k) &&& m = (x &&& (m <<< k)) >>> k := by
  apply Nat.eq_of_testBit_eq
  intro i
  simp [Nat.testBit_and, Nat.testBit_shiftRight, Nat.testBit_shiftLeft,
    Nat.le_add_right, Nat.add_sub_cancel_left]

/-- Masking a left shift can be pushed through the shift. -/
theorem shiftLeft_and_eq (x k m : Nat) :
    (x <<< k) &&& m = (x &&& (m >>> k)) <<< k := by
  apply Nat.eq_of_testBit_eq
  intro i
  simp only [Nat.testBit_and, Nat.testBit_shiftLeft, Nat.testBit_shiftRight]
  by_cases h : k ≤ i
  · simp [h, Nat.add_sub_cancel' h]
  · simp [h]

/-- A right shift distributes over bitwise or. -/
theorem shiftRight_or_eq (x y k : Nat) :
    (x ||| y) >>> k = (x >>> k) ||| (y >>> k) := by
  apply Nat.eq_of_testBit_eq
  intro i
  simp [Nat.testBit_or, Nat.testBit_shiftRight]

/-- A value whose bits are disjoint from `L` contributes nothing to any
submask `c` of `L`. -/
theorem and_eq_zero_of_submask (p L c : Nat) (hp : p &&& L = 0)
    (hc : L &&& c = c) : p &&& c = 0 := by
  calc p &&& c = p &&& (L &&& c) := by rw [hc]
    _ = (p &&& L) &&& c := by rw [Nat.and_assoc]
    _ = 0 := by rw [hp]; simp

/-- Folding a mask through a known superset mask: if `a`'s bits lie inside
`M`, then masking with `c` is masking with `M &&& c`. -/
theorem and_fold_of_subset (a M c : Nat) (ha : a &&& M = a) :
    a &&& c = a &&& (M &&& c) := by
  conv_lhs => rw [← ha]
  rw [Nat.and_assoc]

/-- A value aligned to the low mask `L` is untouched by the complementary
high mask `H`. -/
theorem and_high_of_aligned (p L H : Nat) (hp : p &&& L = 0) (hp32 : p < 2 ^ 32)
    (hLH : L ||| H = 2 ^ 32 - 1) : p &&& H = p := by
  have hfull : p &&& (2 ^ 32 - 1) = p :=
    Nat.and_pow_two_sub_one_of_lt_two_pow hp32
  calc p &&& H = 0 ||| (p &&& H) := by simp
    _ = (p &&& L) ||| (p &&& H) := by rw [hp]
    _ = p &&& (L ||| H) := by rw [Nat.and_or_distrib_left]
    _ = p := by rw [hLH, hfull]

/-- Each single bit of a word is either clear or set. -/
theorem and_two_pow_cases (a k : Nat) : a &&& 2 ^ k = 0 ∨ a &&& 2 ^ k = 2 ^ k := by
  rw [Nat.and_two_pow]
  cases a.testBit k <;> simp

/-- Reduction of the first-level type decoder when the tag bits are `01`. -/
theorem tt_get_type_page (d : Nat) (h : d &&& 0b11 = 1) :
    TranslationTableDescriptor.get_type d = TranslationTableType.Page := by
  unfold TranslationTableDescriptor.get_type
  rw [h]

/-- Reduction of the first-level type decoder for a section (`1x` tag, bit 18
clear). -/
theorem tt_get_type_section (d : Nat) (h : d &&& 0b11 = 2 ∨ d &&& 0b11 = 3)
    (h18 : d &&& 0x40000 = 0) :
    TranslationTableDescriptor.get_type d = TranslationTableType.Section := by
  unfold TranslationTableDescriptor.get_type
  rcases h with h | h <;> rw [h] <;> simp only [h18]

/-- Reduction of the first-level type decoder for a supersection (`1x` tag,
bit 18 set). -/
theorem tt_get_type_supersection (d : Nat) (h : d &&& 0b11 = 2 ∨ d &&& 0b11 = 3)
    (h18 : d &&& 0x40000 = 0x40000) :
    TranslationTableDescriptor.get_type d = TranslationTableType.Supersection := by
  unfold TranslationTableDescriptor.get_type
  rcases h with h | h <;> rw [h] <;> simp only [h18]

/-- Reduction of the second-level type decoder when the tag bits are `01`. -/
theorem pt_get_type_large (d : Nat) (h : d &&& 0b11 = 1) :
    PageTableDescriptor.get_type d = PageTableType.LargePage := by
  unfold PageTableDescriptor.get_type
  rw [h]

/-- Reduction of the second-level type decoder for a small page (`1x` tag). -/
theorem pt_get_type_small (d : Nat) (h : d &&& 0b11 = 2 ∨ d &&& 0b11 = 3) :
    PageTableDescriptor.get_type d = PageTableType.SmallPage := by
  unfold PageTableDescriptor.get_type
  rcases h with h | h <;> rw [h]

/-- C1: the claim states that `get_phys_addr` returns
`Err(TranslationError)` exactly when the hardware status bit (low bit of the
returned value) is set. In the code the result is masked with `!0xfff` before
the low bit is tested, so the test always sees a cleared bit: for every
virtual address and every hardware result — in particular one with the status
bit set, such as `hw = 1` — the function returns `Ok` of the masked frame
combined with the page offset, and the `TranslationError` branch is dead
code. -/
theorem C1_get_phys_addr_ignores_status_bit :
    get_phys_addr 0 1 = Except.ok 0 ∧
    ∀ virt_addr hw, get_phys_addr virt_addr hw =
      Except.ok ((hw &&& 0xfffff000) ||| (virt_addr &&& 0xfff)) := by
  constructor
  · rfl
  · intro v hw
    unfold get_phys_addr
    have h2 : (0xffffffff ^^^ 0xfff : Nat) = 0xfffff000 := by decide
    rw [h2]
    have h1 : (hw &&& 0xfffff000) &&& 1 = 0 := by
      rw [Nat.and_assoc]
      simp
    simp [h1]

/-- C3: for every non-`Invalid` first-level type and second-level type and
every physical address not aligned to the type's alignment mask, the typed
constructors fail with `AlignError`. -/
theorem C3_misaligned_new_fails (t : TranslationTableType) (pt : PageTableType)
    (p q a b : Nat)
    (ht : t ≠ TranslationTableType.Invalid) (hpt : pt ≠ PageTableType.Invalid)
    (hp : is_aligned p t.align = false) (hq : is_aligned q pt.align = false) :
    TranslationTableDescriptor.new t p a = Except.error PageError.AlignError ∧
    PageTableDescriptor.new pt q b = Except.error PageError.AlignError := by
  constructor
  · simp [TranslationTableDescriptor.new, check_align, ht, hp]
  · simp [PageTableDescriptor.new, check_align, hpt, hq]

/-- Witness for C3 at the concrete misaligned address 1. -/
theorem C3_misaligned_new_fails_witness :
    TranslationTableDescriptor.new TranslationTableType.Section 1 0 =
        Except.error PageError.AlignError ∧
    PageTableDescriptor.new PageTableType.SmallPage 1 0 =
        Except.error PageError.AlignError :=
  C3_misaligned_new_fails TranslationTableType.Section PageTableType.SmallPage 1 1 0 0
    (by decide) (by decide) (by decide) (by decide)

/-- C9: `DeviceVmemMapper::new(0x9000_0000, [0x3f])` succeeds (the base is
16MB aligned), `lookup(0x3f20_0000)` on the resulting mapper returns
`Some(0x9020_0000)`, and for every mapper and every u32 physical address whose
top byte is absent from the device list, `lookup` returns `None`. -/
theorem C9_device_mapper_lookup :
    DeviceVmemMapper.new 0x90000000 [0x3f] = Except.ok ⟨0x90000000, [0x3f]⟩ ∧
    DeviceVmemMapper.lookup ⟨0x90000000, [0x3f]⟩ 0x3f200000 = some 0x90200000 ∧
    ∀ (m : DeviceVmemMapper) (p : Nat), p < 2 ^ 32 →
      (p >>> 24) ∉ m.device_base_addresses → DeviceVmemMapper.lookup m p = none := by
  refine ⟨by rfl, by rfl, ?_⟩
  intro m p hp hmem
  have hlt : p >>> 24 < 256 := by
    rw [Nat.shiftRight_eq_div_pow]
    omega
  have hmod : p >>> 24 % 256 = p >>> 24 := Nat.mod_eq_of_lt hlt
  have hfind : m.device_base_addresses.findIdx? (fun y => y == p >>> 24) = none := by
    rw [List.findIdx?_eq_none_iff]
    intro x hx
    simp only [beq_eq_false_iff_ne, ne_eq]
    intro hxeq
    exact hmem (hxeq ▸ hx)
  simp [DeviceVmemMapper.lookup, hmod, hfind]

/-- Witness for C9's universally quantified part: physical address
`0x4000_0000` has top byte `0x40`, absent from `[0x3f]`. -/
theorem C9_device_mapper_lookup_witness :
    DeviceVmemMapper.lookup ⟨0x90000000, [0x3f]⟩ 0x40000000 = none :=
  C9_device_mapper_lookup.2.2 ⟨0x90000000, [0x3f]⟩ 0x40000000 (by norm_num) (by decide)

/-- C10: `from_indices` succeeds exactly for translation index < 4096, page
index < 256 and offset < 0xfff (so offset 0xfff itself is rejected), and the
returned address is the or of the shifted indices, from which
`base_table_index` and `page_table_index` recover the inputs. -/
theorem C10_from_indices_spec (t p o : Nat) :
    ((VirtualAddress.from_indices t p o).isSome = true ↔
      t < 4096 ∧ p < 256 ∧ o < 0xfff) ∧
    (∀ a, VirtualAddress.from_indices t p o = some a →
      a = ((t <<< 20) ||| (p <<< 12)) ||| o ∧
      VirtualAddress.base_table_index a = t ∧
      VirtualAddress.page_table_index a = p) := by
  constructor
  · simp only [VirtualAddress.from_indices, TRANSLATION_TABLE_SIZE, PAGE_TABLE_SIZE]
    split
    · simp only [Option.isSome_none]
      constructor
      · intro h; exact absurd h (by simp)
      · intro h; omega
    · simp only [Option.isSome_some, true_iff]
      omega
  · intro a ha
    unfold VirtualAddress.from_indices at ha
    split at ha
    · exact absurd ha (by simp)
    · rename_i hcond
      have hb : t < 4096 ∧ p < 256 ∧ o < 0xfff := by
        simp only [TRANSLATION_TABLE_SIZE, PAGE_TABLE_SIZE] at hcond
        omega
      obtain ⟨ht, hp, ho⟩ := hb
      have haval : a = ((t <<< 20) ||| (p <<< 12)) ||| o :=
        (Option.some_inj.mp ha).symm
      have hp12 : (p <<< 12) >>> 20 = 0 := by
        rw [Nat.shiftLeft_eq, Nat.shiftRight_eq_div_pow]
        apply Nat.div_eq_of_lt
        omega
      have ho20 : o >>> 20 = 0 := by
        rw [Nat.shiftRight_eq_div_pow]
        apply Nat.div_eq_of_lt
        omega
      refine ⟨haval, ?_, ?_⟩
      · unfold VirtualAddress.base_table_index
        rw [haval, shiftRight_or_eq, shiftRight_or_eq, Nat.shiftLeft_shiftRight,
          hp12, ho20]
        simp
      · unfold VirtualAddress.page_table_index
        rw [haval]
        have hmask : ((((t <<< 20) ||| (p <<< 12)) ||| o) &&& 0xfffff) =
            (p <<< 12) ||| o := by
          rw [Nat.and_distrib_right, Nat.and_distrib_right]
          have h1 : (t <<< 20) &&& 0xfffff = 0 := by
            rw [shiftLeft_and_eq]
            have hz : (0xfffff : Nat) >>> 20 = 0 := by decide
            rw [hz, Nat.and_zero, Nat.zero_shiftLeft]
          have h2 : (p <<< 12) &&& 0xfffff = p <<< 12 := by
            rw [shiftLeft_and_eq]
            have hz : (0xfffff : Nat) >>> 12 = 0xff := by decide
            have hpf : p &&& 0xff = p := by
              rw [show (0xff : Nat) = 2 ^ 8 - 1 by norm_num]
              exact Nat.and_pow_two_sub_one_of_lt_two_pow hp
            rw [hz, hpf]
          have h3 : o &&& 0xfffff = o := by
            rw [show (0xfffff : Nat) = 2 ^ 20 - 1 by norm_num]
            apply Nat.and_pow_two_sub_one_of_lt_two_pow
            omega
          rw [h1, h2, h3]
          simp
        rw [hmask, shiftRight_or_eq, Nat.shiftLeft_shiftRight]
        have h2 : o >>> 12 = 0 := by
          rw [Nat.shiftRight_eq_div_pow]
          apply Nat.div_eq_of_lt
          omega
        rw [h2]
        simp

/-- Witness for C10 at translation index 1, page index 2, offset 3. -/
theorem C10_from_indices_spec_witness :
    VirtualAddress.from_indices 1 2 3 = some 0x102003 ∧
    VirtualAddress.base_table_index 0x102003 = 1 ∧
    VirtualAddress.page_table_index 0x102003 = 2 := by
  have h := (C10_from_indices_spec 1 2 3).2 0x102003 (by decide)
  exact ⟨by decide, h.2.1, h.2.2⟩

/-- Mask folding through a superset mask, with the constant part evaluated. -/
theorem and_fold_eq (a M c r : Nat) (ha : a &&& M = a) (h : M &&& c = r) :
    a &&& c = a &&& r := by
  rw [and_fold_of_subset a M c ha, h]

/-- Mask folding through a superset mask when the masks are disjoint. -/
theorem and_fold_zero (a M c : Nat) (ha : a &&& M = a) (h : M &&& c = 0) :
    a &&& c = 0 := by
  rw [and_fold_of_subset a M c ha, h, Nat.and_zero]

/-- The typed constructor on a non-`Invalid` type and an aligned address
reduces to the encoded attributes or-ed with the address. -/
theorem tt_new_ok (t : TranslationTableType) (p a : Nat)
    (ht : t ≠ TranslationTableType.Invalid) (hp : is_aligned p t.align = true) :
    TranslationTableDescriptor.new t p a =
      Except.ok (MemoryAttributes.to_table_descriptor a t ||| p) := by
  simp [TranslationTableDescriptor.new, check_align, ht, hp]

/-- Second-level analogue of `tt_new_ok`. -/
theorem pt_new_ok (t : PageTableType) (p a : Nat)
    (ht : t ≠ PageTableType.Invalid) (hp : is_aligned p t.align = true) :
    PageTableDescriptor.new t p a =
      Except.ok (MemoryAttributes.to_page_descriptor a t ||| p) := by
  simp [PageTableDescriptor.new, check_align, ht, hp]

/-- `is_aligned` unfolded to the mask equation. -/
theorem is_aligned_iff (p mask : Nat) : is_aligned p mask = true ↔ p &&& mask = 0 := by
  simp [is_aligned]

/-- Reassociate and evaluate a double mask. -/
theorem and_assoc_fold (a c1 c2 r : Nat) (h : c1 &&& c2 = r) :
    (a &&& c1) &&& c2 = a &&& r := by
  rw [Nat.and_assoc, h]

/-- The section descriptor built from canonical attributes and a 1MB-aligned
address decodes as a `Section`. -/
theorem section_descriptor_tag (p a : Nat) (ha : MemoryAttributes.canonical a)
    (hp : p &&& 0xfffff = 0) :
    TranslationTableDescriptor.get_type
      (MemoryAttributes.to_table_descriptor a TranslationTableType.Section ||| p) =
      TranslationTableType.Section := by
  have ha' : a &&& 0xbfdfd = a := ha
  unfold MemoryAttributes.to_table_descriptor
  have h3 : ((a ||| 0x2) ||| p) &&& 3 = (a &&& 1) ||| 2 := by
    rw [Nat.and_distrib_right, Nat.and_distrib_right,
      and_fold_eq a 0xbfdfd 3 1 ha' (by decide),
      (by decide : (0x2 : Nat) &&& 3 = 2),
      and_eq_zero_of_submask p 0xfffff 3 hp (by decide), Nat.or_zero]
  have h18 : ((a ||| 0x2) ||| p) &&& 0x40000 = 0 := by
    rw [Nat.and_distrib_right, Nat.and_distrib_right,
      and_fold_zero a 0xbfdfd 0x40000 ha' (by decide),
      (by decide : (0x2 : Nat) &&& 0x40000 = 0),
      and_eq_zero_of_submask p 0xfffff 0x40000 hp (by decide)]
    decide
  apply tt_get_type_section _ _ h18
  rw [h3]
  rcases and_two_pow_cases a 0 with h | h <;> simp only [pow_zero] at h <;> rw [h]
  · left; decide
  · right; decide

/-- The high bits of a section descriptor are exactly the aligned physical
address. -/
theorem section_descriptor_high (p a : Nat) (ha : MemoryAttributes.canonical a)
    (hp : p &&& 0xfffff = 0) (hp32 : p < 2 ^ 32) :
    ((a ||| 0x2) ||| p) &&& 0xfff00000 = p := by
  have ha' : a &&& 0xbfdfd = a := ha
  rw [Nat.and_distrib_right, Nat.and_distrib_right,
    and_fold_zero a 0xbfdfd 0xfff00000 ha' (by decide),
    (by decide : (0x2 : Nat) &&& 0xfff00000 = 0),
    and_high_of_aligned p 0xfffff 0xfff00000 hp hp32 (by decide)]
  simp

/-- The page (second-level pointer) descriptor decodes as a `Page` for every
attribute word and 1KB-aligned address. -/
theorem page_descriptor_tag (p a : Nat) (hp : p &&& 0x3ff = 0) :
    TranslationTableDescriptor.get_type
      (MemoryAttributes.to_table_descriptor a TranslationTableType.Page ||| p) =
      TranslationTableType.Page := by
  unfold MemoryAttributes.to_table_descriptor
  apply tt_get_type_page
  rw [Nat.and_distrib_right, Nat.and_distrib_right, Nat.and_distrib_right,
    (by decide : (1 : Nat) &&& 3 = 1),
    and_assoc_fold a 0x1e0 3 0 (by decide), Nat.and_zero,
    shiftLeft_and_eq, (by decide : (3 : Nat) >>> 2 = 0), Nat.and_zero,
    Nat.zero_shiftLeft,
    and_eq_zero_of_submask p 0x3ff 3 hp (by decide)]
  decide

/-- The high bits of a page descriptor are exactly the aligned physical
address. -/
theorem page_descriptor_high (p a : Nat) (hp : p &&& 0x3ff = 0) (hp32 : p < 2 ^ 32) :
    (((1 ||| (a &&& 0x1e0)) ||| ((a &&& 1) <<< 2)) ||| p) &&& 0xfffffc00 = p := by
  rw [Nat.and_distrib_right, Nat.and_distrib_right, Nat.and_distrib_right,
    (by decide : (1 : Nat) &&& 0xfffffc00 = 0),
    and_assoc_fold a 0x1e0 0xfffffc00 0 (by decide), Nat.and_zero,
    shiftLeft_and_eq, (by decide : (0xfffffc00 : Nat) >>> 2 = 0x3fffff00),
    and_assoc_fold a 1 0x3fffff00 0 (by decide), Nat.and_zero, Nat.zero_shiftLeft,
    and_high_of_aligned p 0x3ff 0xfffffc00 hp hp32 (by decide)]
  simp

/-- The supersection descriptor built from canonical attributes and an
aligned address decodes as a `Supersection`. -/
theorem supersection_descriptor_tag (p a : Nat) (ha : MemoryAttributes.canonical a)
    (hp : p &&& 0xfffff = 0) :
    TranslationTableDescriptor.get_type
      (MemoryAttributes.to_table_descriptor a TranslationTableType.Supersection ||| p) =
      TranslationTableType.Supersection := by
  have ha' : a &&& 0xbfdfd = a := ha
  unfold MemoryAttributes.to_table_descriptor
  have h3 : ((0x40002 ||| (a &&& 0xffc1f)) ||| p) &&& 3 = 2 ||| (a &&& 1) := by
    rw [Nat.and_distrib_right, Nat.and_distrib_right,
      (by decide : (0x40002 : Nat) &&& 3 = 2),
      and_assoc_fold a 0xffc1f 3 3 (by decide),
      and_fold_eq a 0xbfdfd 3 1 ha' (by decide),
      and_eq_zero_of_submask p 0xfffff 3 hp (by decide), Nat.or_zero]
  have h18 : ((0x40002 ||| (a &&& 0xffc1f)) ||| p) &&& 0x40000 = 0x40000 := by
    rw [Nat.and_distrib_right, Nat.and_distrib_right,
      (by decide : (0x40002 : Nat) &&& 0x40000 = 0x40000),
      and_assoc_fold a 0xffc1f 0x40000 0x40000 (by decide),
      and_fold_zero a 0xbfdfd 0x40000 ha' (by decide),
      and_eq_zero_of_submask p 0xfffff 0x40000 hp (by decide)]
    decide
  apply tt_get_type_supersection _ _ h18
  rw [h3]
  rcases and_two_pow_cases a 0 with h | h <;> simp only [pow_zero] at h <;> rw [h]
  · left; decide
  · right; decide

/-- The high bits of a supersection descriptor are exactly the aligned
physical address. -/
theorem supersection_descriptor_high (p a : Nat) (ha : MemoryAttributes.canonical a)
    (hp : p &&& 0xfffff = 0) (hp32 : p < 2 ^ 32) :
    ((0x40002 ||| (a &&& 0xffc1f)) ||| p) &&& 0xfff00000 = p := by
  have ha' : a &&& 0xbfdfd = a := ha
  rw [Nat.and_distrib_right, Nat.and_distrib_right,
    (by decide : (0x40002 : Nat) &&& 0xfff00000 = 0),
    and_assoc_fold a 0xffc1f 0xfff00000 0 (by decide), Nat.and_zero,
    and_high_of_aligned p 0xfffff 0xfff00000 hp hp32 (by decide)]
  simp

/-- The small-page descriptor decodes as a `SmallPage` for every attribute
word and 4KB-aligned address. -/
theorem small_page_tag (q a : Nat) (hq : q &&& 0xfff = 0) :
    PageTableDescriptor.get_type
      (MemoryAttributes.to_page_descriptor a PageTableType.SmallPage ||| q) =
      PageTableType.SmallPage := by
  unfold MemoryAttributes.to_page_descriptor
  simp only [show (10 - 4 : Nat) = 6 from rfl]
  apply pt_get_type_small
  simp only [Nat.and_distrib_right]
  rw [(by decide : (0b10 : Nat) &&& 3 = 2),
    and_assoc_fold a 0b1100 3 0 (by decide), Nat.and_zero,
    shiftRight_and_eq (a &&& 0x10) 4 3,
    (by decide : (3 : Nat) <<< 4 = 0x30),
    and_assoc_fold a 0x10 0x30 0x10 (by decide),
    shiftRight_and_eq (a &&& 0x3fc00) 6 3,
    (by decide : (3 : Nat) <<< 6 = 0xc0),
    and_assoc_fold a 0x3fc00 0xc0 0 (by decide), Nat.and_zero, Nat.zero_shiftRight,
    and_eq_zero_of_submask q 0xfff 3 hq (by decide)]
  rcases and_two_pow_cases a 4 with h | h <;>
    simp only [show (2 ^ 4 : Nat) = 0x10 from rfl] at h <;> rw [h] <;> decide

/-- The high bits of a small-page descriptor are exactly the aligned physical
address. -/
theorem small_page_high (q a : Nat) (hq : q &&& 0xfff = 0) (hq32 : q < 2 ^ 32) :
    ((((0b10 ||| (a &&& 0b1100)) ||| ((a &&& 0x10) >>> 4)) |||
      ((a &&& 0x3fc00) >>> 6)) ||| q) &&& 0xfffff000 = q := by
  simp only [Nat.and_distrib_right]
  rw [(by decide : (0b10 : Nat) &&& 0xfffff000 = 0),
    and_assoc_fold a 0b1100 0xfffff000 0 (by decide), Nat.and_zero,
    shiftRight_and_eq (a &&& 0x10) 4 0xfffff000,
    (by decide : (0xfffff000 : Nat) <<< 4 = 0xfffff0000),
    and_assoc_fold a 0x10 0xfffff0000 0 (by decide), Nat.and_zero, Nat.zero_shiftRight,
    shiftRight_and_eq (a &&& 0x3fc00) 6 0xfffff000,
    (by decide : (0xfffff000 : Nat) <<< 6 = 0x3ffffc0000),
    and_assoc_fold a 0x3fc00 0x3ffffc0000 0 (by decide), Nat.and_zero,
    and_high_of_aligned q 0xfff 0xfffff000 hq hq32 (by decide)]
  simp

/-- The large-page descriptor decodes as a `LargePage` for every attribute
word and 64KB-aligned address. -/
theorem large_page_tag (q a : Nat) (hq : q &&& 0xffff = 0) :
    PageTableDescriptor.get_type
      (MemoryAttributes.to_page_descriptor a PageTableType.LargePage ||| q) =
      PageTableType.LargePage := by
  unfold MemoryAttributes.to_page_descriptor
  simp only [show (10 - 4 : Nat) = 6 from rfl, show (15 - 9 : Nat) = 6 from rfl,
    show (15 - 4 : Nat) = 11 from rfl]
  apply pt_get_type_large
  simp only [Nat.and_distrib_right]
  rw [(by decide : (0b1 : Nat) &&& 3 = 1),
    and_assoc_fold a 0b1100 3 0 (by decide), Nat.and_zero,
    shiftRight_and_eq (a &&& 0xc00) 6 3,
    shiftRight_and_eq (a &&& 0x38000) 6 3,
    (by decide : (3 : Nat) <<< 6 = 0xc0),
    and_assoc_fold a 0xc00 0xc0 0 (by decide),
    and_assoc_fold a 0x38000 0xc0 0 (by decide), Nat.and_zero, Nat.zero_shiftRight,
    shiftLeft_and_eq (a &&& 0x10) 11 3,
    (by decide : (3 : Nat) >>> 11 = 0), Nat.and_zero, Nat.zero_shiftLeft,
    and_eq_zero_of_submask q 0xffff 3 hq (by decide)]
  decide

/-- The high bits of a large-page descriptor are exactly the aligned physical
address. -/
theorem large_page_high (q a : Nat) (hq : q &&& 0xffff = 0) (hq32 : q < 2 ^ 32) :
    (((((0b1 ||| (a &&& 0b1100)) ||| ((a &&& 0xc00) >>> 6)) |||
      ((a &&& 0x38000) >>> 6)) ||| ((a &&& 0x10) <<< 11)) ||| q) &&& 0xffff0000 = q := by
  simp only [Nat.and_distrib_right]
  rw [(by decide : (0b1 : Nat) &&& 0xffff0000 = 0),
    and_assoc_fold a 0b1100 0xffff0000 0 (by decide), Nat.and_zero,
    shiftRight_and_eq (a &&& 0xc00) 6 0xffff0000,
    shiftRight_and_eq (a &&& 0x38000) 6 0xffff0000,
    (by decide : (0xffff0000 : Nat) <<< 6 = 0x3fffc00000),
    and_assoc_fold a 0xc00 0x3fffc00000 0 (by decide),
    and_assoc_fold a 0x38000 0x3fffc00000 0 (by decide), Nat.and_zero,
    Nat.zero_shiftRight,
    shiftLeft_and_eq (a &&& 0x10) 11 0xffff0000,
    (by decide : (0xffff0000 : Nat) >>> 11 = 0x1fffe0),
    and_assoc_fold a 0x10 0x1fffe0 0 (by decide), Nat.and_zero, Nat.zero_shiftLeft,
    and_high_of_aligned q 0xffff 0xffff0000 hq hq32 (by decide)]
  simp

/-- Reduction of `get_addr` once the descriptor's decoded type is known. -/
theorem tt_get_addr_of_type (d : Nat) (t : TranslationTableType)
    (hty : TranslationTableDescriptor.get_type d = t)
    (ht : t ≠ TranslationTableType.Invalid) :
    TranslationTableDescriptor.get_addr d =
      Except.ok (d &&& (0xffffffff ^^^ t.align)) := by
  simp only [TranslationTableDescriptor.get_addr, hty]
  simp [ht]

/-- Second-level analogue of `tt_get_addr_of_type`. -/
theorem pt_get_addr_of_type (d : Nat) (t : PageTableType)
    (hty : PageTableDescriptor.get_type d = t)
    (ht : t ≠ PageTableType.Invalid) :
    PageTableDescriptor.get_addr d =
      Except.ok (d &&& (0xffffffff ^^^ t.align)) := by
  simp only [PageTableDescriptor.get_addr, hty]
  simp [ht]

/-- C2: for every non-`Invalid` descriptor type, canonical attribute word and
suitably aligned u32 physical address, the typed constructor succeeds and the
resulting descriptor reports the requested type via `get_type` and the
original physical address via `get_addr` (for the first-level descriptor
`get_addr` is the spec-modelled accessor). -/
theorem C2_typed_constructor_spec (t : TranslationTableType) (pt : PageTableType) (p q a : Nat)
    (ht : t ≠ TranslationTableType.Invalid) (hpt : pt ≠ PageTableType.Invalid)
    (ha : MemoryAttributes.canonical a)
    (hp : is_aligned p t.align = true) (hp32 : p < 2 ^ 32)
    (hq : is_aligned q pt.align = true) (hq32 : q < 2 ^ 32) :
    (∃ d, TranslationTableDescriptor.new t p a = Except.ok d ∧
      TranslationTableDescriptor.get_type d = t ∧
      TranslationTableDescriptor.get_addr d = Except.ok p) ∧
    (∃ d, PageTableDescriptor.new pt q a = Except.ok d ∧
      PageTableDescriptor.get_type d = pt ∧
      PageTableDescriptor.get_addr d = Except.ok q) := by
  have hp' : p &&& t.align = 0 := (is_aligned_iff _ _).mp hp
  have hq' : q &&& pt.align = 0 := (is_aligned_iff _ _).mp hq
  constructor
  · refine ⟨_, tt_new_ok t p a ht hp, ?_⟩
    cases t with
    | Invalid => exact absurd rfl ht
    | Page =>
      simp only [TranslationTableType.align] at hp'
      have hty := page_descriptor_tag p a hp'
      refine ⟨hty, ?_⟩
      rw [tt_get_addr_of_type _ _ hty (by decide)]
      simp only [TranslationTableType.align,
        (by decide : (0xffffffff ^^^ 0x3ff : Nat) = 0xfffffc00)]
      unfold MemoryAttributes.to_table_descriptor
      rw [page_descriptor_high p a hp' hp32]
    | Section =>
      simp only [TranslationTableType.align] at hp'
      have hty := section_descriptor_tag p a ha hp'
      refine ⟨hty, ?_⟩
      rw [tt_get_addr_of_type _ _ hty (by decide)]
      simp only [TranslationTableType.align,
        (by decide : (0xffffffff ^^^ 0xfffff : Nat) = 0xfff00000)]
      unfold MemoryAttributes.to_table_descriptor
      rw [section_descriptor_high p a ha hp' hp32]
    | Supersection =>
      simp only [TranslationTableType.align] at hp'
      have hty := supersection_descriptor_tag p a ha hp'
      refine ⟨hty, ?_⟩
      rw [tt_get_addr_of_type _ _ hty (by decide)]
      simp only [TranslationTableType.align,
        (by decide : (0xffffffff ^^^ 0xfffff : Nat) = 0xfff00000)]
      unfold MemoryAttributes.to_table_descriptor
      rw [supersection_descriptor_high p a ha hp' hp32]
  · refine ⟨_, pt_new_ok pt q a hpt hq, ?_⟩
    cases pt with
    | Invalid => exact absurd rfl hpt
    | SmallPage =>
      simp only [PageTableType.align] at hq'
      have hty := small_page_tag q a hq'
      refine ⟨hty, ?_⟩
      rw [pt_get_addr_of_type _ _ hty (by decide)]
      simp only [PageTableType.align,
        (by decide : (0xffffffff ^^^ 0xfff : Nat) = 0xfffff000)]
      unfold MemoryAttributes.to_page_descriptor
      simp only [show (10 - 4 : Nat) = 6 from rfl]
      rw [small_page_high q a hq' hq32]
    | LargePage =>
      simp only [PageTableType.align] at hq'
      have hty := large_page_tag q a hq'
      refine ⟨hty, ?_⟩
      rw [pt_get_addr_of_type _ _ hty (by decide)]
      simp only [PageTableType.align,
        (by decide : (0xffffffff ^^^ 0xffff : Nat) = 0xffff0000)]
      unfold MemoryAttributes.to_page_descriptor
      simp only [show (10 - 4 : Nat) = 6 from rfl, show (15 - 9 : Nat) = 6 from rfl,
        show (15 - 4 : Nat) = 11 from rfl]
      rw [large_page_high q a hq' hq32]

/-- Witness for C2: spec scenario 1 (`Section` at `0x8020_0000`) together with
a small page at `0x8020_1000`, attributes `AP::PrivAccess + XN::Enable`. -/
theorem C2_typed_constructor_spec_witness :
    (∃ d, TranslationTableDescriptor.new TranslationTableType.Section 0x80200000 0x410 =
        Except.ok d ∧
      TranslationTableDescriptor.get_type d = TranslationTableType.Section ∧
      TranslationTableDescriptor.get_addr d = Except.ok 0x80200000) ∧
    (∃ d, PageTableDescriptor.new PageTableType.SmallPage 0x80201000 0x410 =
        Except.ok d ∧
      PageTableDescriptor.get_type d = PageTableType.SmallPage ∧
      PageTableDescriptor.get_addr d = Except.ok 0x80201000) :=
  C2_typed_constructor_spec TranslationTableType.Section PageTableType.SmallPage 0x80200000 0x80201000
    0x410 (by decide) (by decide) (by decide) (by decide) (by norm_num)
    (by decide) (by norm_num)

/-- C4 (counterexample): the claim asserts the decode-after-encode round trip
returns the attributes unchanged for the `Page` type as well. At the canonical
attribute word `0x10` (XN only) and the aligned address 0, the constructed
page descriptor is `1` and decoding it yields `Some 0`, not `Some 0x10`: the
page encoder keeps only the PXN and domain bits. -/
theorem C4_roundtrip_counterexample :
    MemoryAttributes.canonical 0x10 ∧
    is_aligned 0 TranslationTableType.Page.align = true ∧
    TranslationTableDescriptor.new TranslationTableType.Page 0 0x10 = Except.ok 1 ∧
    MemoryAttributes.from_table_descriptor 1 = some 0 ∧
    MemoryAttributes.from_table_descriptor 1 ≠ some 0x10 :=
  ⟨by decide, by decide, by rfl, by rfl, by decide⟩

/-- C4 (amended): for every canonical attribute word and aligned u32 address,
`from_table_descriptor (new Section p a) = some a`, while for the `Page` type
the round trip returns the attributes restricted to the domain and PXN bits
(everything else is not representable in a second-level-pointer descriptor). -/
theorem C4_roundtrip_amended (p q a : Nat) (ha : MemoryAttributes.canonical a)
    (hp : is_aligned p TranslationTableType.Section.align = true) (hp32 : p < 2 ^ 32)
    (hq : is_aligned q TranslationTableType.Page.align = true) (hq32 : q < 2 ^ 32) :
    (∃ d, TranslationTableDescriptor.new TranslationTableType.Section p a =
        Except.ok d ∧
      MemoryAttributes.from_table_descriptor d = some a) ∧
    (∃ d, TranslationTableDescriptor.new TranslationTableType.Page q a =
        Except.ok d ∧
      MemoryAttributes.from_table_descriptor d =
        some (a &&& (ATTRIBUTES.DOMAIN ||| ATTRIBUTES.PXN))) := by
  have ha' : a &&& 0xbfdfd = a := ha
  have hp' : p &&& 0xfffff = 0 := by
    have := (is_aligned_iff _ _).mp hp
    simpa [TranslationTableType.align] using this
  have hq' : q &&& 0x3ff = 0 := by
    have := (is_aligned_iff _ _).mp hq
    simpa [TranslationTableType.align] using this
  constructor
  · refine ⟨_, tt_new_ok TranslationTableType.Section p a (by decide) hp, ?_⟩
    have hty := section_descriptor_tag p a ha hp'
    unfold MemoryAttributes.to_table_descriptor at hty ⊢
    simp only [MemoryAttributes.from_table_descriptor, hty]
    rw [Nat.and_distrib_right, Nat.and_distrib_right, ha',
      (by decide : (0x2 : Nat) &&& 0xbfdfd = 0),
      and_eq_zero_of_submask p 0xfffff 0xbfdfd hp' (by decide)]
    simp
  · refine ⟨_, tt_new_ok TranslationTableType.Page q a (by decide) hq, ?_⟩
    have hty := page_descriptor_tag q a hq'
    unfold MemoryAttributes.to_table_descriptor at hty ⊢
    simp only [MemoryAttributes.from_table_descriptor, hty]
    have h1 : (((1 ||| (a &&& 0x1e0)) ||| ((a &&& 1) <<< 2)) ||| q) &&& 0x1e0 =
        a &&& 0x1e0 := by
      simp only [Nat.and_distrib_right]
      rw [(by decide : (1 : Nat) &&& 0x1e0 = 0),
        and_assoc_fold a 0x1e0 0x1e0 0x1e0 (by decide),
        shiftLeft_and_eq (a &&& 1) 2 0x1e0,
        (by decide : (0x1e0 : Nat) >>> 2 = 0x78),
        and_assoc_fold a 1 0x78 0 (by decide), Nat.and_zero, Nat.zero_shiftLeft,
        and_eq_zero_of_submask q 0x3ff 0x1e0 hq' (by decide)]
      simp
    have h2 : ((((1 ||| (a &&& 0x1e0)) ||| ((a &&& 1) <<< 2)) ||| q) >>> 2) &&& 1 =
        a &&& 1 := by
      rw [shiftRight_and_eq, (by decide : (1 : Nat) <<< 2 = 4)]
      simp only [Nat.and_distrib_right]
      rw [(by decide : (1 : Nat) &&& 4 = 0),
        and_assoc_fold a 0x1e0 4 0 (by decide), Nat.and_zero,
        shiftLeft_and_eq (a &&& 1) 2 4,
        (by decide : (4 : Nat) >>> 2 = 1),
        and_assoc_fold a 1 1 1 (by decide),
        and_eq_zero_of_submask q 0x3ff 4 hq' (by decide)]
      simp only [Nat.zero_or, Nat.or_zero]
      exact Nat.shiftLeft_shiftRight _ _
    have h3 : ((((1 ||| (a &&& 0x1e0)) ||| ((a &&& 1) <<< 2)) ||| q) &&& 0x8) <<< 16 =
        0 := by
      simp only [Nat.and_distrib_right]
      rw [(by decide : (1 : Nat) &&& 0x8 = 0),
        and_assoc_fold a 0x1e0 0x8 0 (by decide), Nat.and_zero,
        shiftLeft_and_eq (a &&& 1) 2 0x8,
        (by decide : (0x8 : Nat) >>> 2 = 2),
        and_assoc_fold a 1 2 0 (by decide), Nat.and_zero, Nat.zero_shiftLeft,
        and_eq_zero_of_submask q 0x3ff 0x8 hq' (by decide)]
      simp
    rw [h1, h2, h3, Nat.or_zero, ← Nat.and_or_distrib_left,
      (by decide : (0x1e0 ||| 1 : Nat) = 0x1e1),
      (by decide : ATTRIBUTES.DOMAIN ||| ATTRIBUTES.PXN = 0x1e1)]

/-- Witness for C4 (amended) at `a = 0x410`, section at `0x8020_0000` and page
pointer at `0x8020_0400`. -/
theorem C4_roundtrip_amended_witness :
    (∃ d, TranslationTableDescriptor.new TranslationTableType.Section 0x80200000 0x410 =
        Except.ok d ∧
      MemoryAttributes.from_table_descriptor d = some 0x410) ∧
    (∃ d, TranslationTableDescriptor.new TranslationTableType.Page 0x80200400 0x410 =
        Except.ok d ∧
      MemoryAttributes.from_table_descriptor d =
        some (0x410 &&& (ATTRIBUTES.DOMAIN ||| ATTRIBUTES.PXN))) :=
  C4_roundtrip_amended 0x80200000 0x80200400 0x410 (by decide) (by decide) (by norm_num)
    (by decide) (by norm_num)

/-- C5: the claim (and the code's own comment) says the Supersection round
trip is the identity on every defined attribute bit except the domain bits,
which are zeroed. At the canonical attributes `AP::PrivAccess` (bit 10) and
the 16MB-aligned address 0 the encoded descriptor is `0x40402`, but decoding
yields `some 0x40000`: the AP bit is dropped and the reserved bit 18 leaks
into the result, instead of the claimed `some 0x400`. The decode mask
`0xdfa1d` contradicts the comment "similar to the section, but we have to set
the domain (bits 5 to 8) to zero", which would give mask `0xbfc1d`. -/
theorem C5_supersection_roundtrip_bug :
    MemoryAttributes.canonical ATTRIBUTES.AP.PrivAccess ∧
    is_aligned 0 0xffffff = true ∧
    TranslationTableDescriptor.new TranslationTableType.Supersection 0
      ATTRIBUTES.AP.PrivAccess = Except.ok 0x40402 ∧
    MemoryAttributes.from_table_descriptor 0x40402 = some 0x40000 ∧
    MemoryAttributes.from_table_descriptor 0x40402 ≠
      some (ATTRIBUTES.AP.PrivAccess &&& (0xffffffff ^^^ ATTRIBUTES.DOMAIN)) :=
  ⟨by decide, by decide, by rfl, by rfl, by decide⟩

/-- C6 (counterexample): the claim says the Page decoder copies descriptor
bit 3 (NS) to canonical bit 16. For the Page descriptor `0x9` (bit 3 set) the
decoder returns `some 0x80000`, whose bit 16 is clear: the NS bit actually
lands at canonical bit 19, not 16. -/
theorem C6_ns_bit_counterexample :
    TranslationTableDescriptor.get_type 0x9 = TranslationTableType.Page ∧
    MemoryAttributes.from_table_descriptor 0x9 = some 0x80000 ∧
    ((0x9 : Nat) >>> 3) &&& 1 = 1 ∧ ((0x80000 : Nat) >>> 16) &&& 1 = 0 :=
  ⟨by rfl, by rfl, by decide, by decide⟩

/-- C6 (amended): for every descriptor decoding as `Page`,
`from_table_descriptor` copies the domain bits in place, copies descriptor
bit 2 to canonical bit 0 (PXN), and copies descriptor bit 3 to canonical
bit 19 (the NS position, a left shift by 16). -/
theorem C6_page_decode_amended (d : Nat)
    (h : TranslationTableDescriptor.get_type d = TranslationTableType.Page) :
    ∃ a, MemoryAttributes.from_table_descriptor d = some a ∧
      a &&& ATTRIBUTES.DOMAIN = d &&& ATTRIBUTES.DOMAIN ∧
      a &&& ATTRIBUTES.PXN = (d >>> 2) &&& 1 ∧
      (a >>> 19) &&& 1 = (d >>> 3) &&& 1 := by
  refine ⟨((d &&& 0x01e0) ||| ((d >>> 2) &&& 1)) ||| ((d &&& 0x8) <<< 16),
    by simp only [MemoryAttributes.from_table_descriptor, h], ?_, ?_, ?_⟩
  · rw [(by decide : ATTRIBUTES.DOMAIN = 0x1e0)]
    simp only [Nat.and_distrib_right]
    rw [and_assoc_fold d 0x1e0 0x1e0 0x1e0 (by decide),
      and_assoc_fold (d >>> 2) 1 0x1e0 0 (by decide), Nat.and_zero,
      shiftLeft_and_eq (d &&& 0x8) 16 0x1e0,
      (by decide : (0x1e0 : Nat) >>> 16 = 0), Nat.and_zero, Nat.zero_shiftLeft]
    simp
  · rw [(by decide : ATTRIBUTES.PXN = 1)]
    simp only [Nat.and_distrib_right]
    rw [and_assoc_fold d 0x1e0 1 0 (by decide), Nat.and_zero,
      and_assoc_fold (d >>> 2) 1 1 1 (by decide),
      shiftLeft_and_eq (d &&& 0x8) 16 1,
      (by decide : (1 : Nat) >>> 16 = 0), Nat.and_zero, Nat.zero_shiftLeft]
    simp
  · rw [shiftRight_and_eq _ 19 1, (by decide : (1 : Nat) <<< 19 = 0x80000)]
    simp only [Nat.and_distrib_right]
    rw [and_assoc_fold d 0x1e0 0x80000 0 (by decide), Nat.and_zero,
      and_assoc_fold (d >>> 2) 1 0x80000 0 (by decide), Nat.and_zero,
      shiftLeft_and_eq (d &&& 0x8) 16 0x80000,
      (by decide : (0x80000 : Nat) >>> 16 = 8),
      and_assoc_fold d 0x8 8 8 (by decide),
      shiftRight_and_eq d 3 1, (by decide : (1 : Nat) <<< 3 = 8)]
    simp only [Nat.zero_or]
    rcases and_two_pow_cases d 3 with hd | hd <;>
      simp only [show (2 ^ 3 : Nat) = 8 from rfl] at hd <;> rw [hd] <;> decide

/-- Witness for C6 (amended) at the Page descriptor 9. -/
theorem C6_page_decode_amended_witness :
    ∃ a, MemoryAttributes.from_table_descriptor 9 = some a ∧
      a &&& ATTRIBUTES.DOMAIN = 9 &&& ATTRIBUTES.DOMAIN ∧
      a &&& ATTRIBUTES.PXN = ((9 : Nat) >>> 2) &&& 1 ∧
      (a >>> 19) &&& 1 = ((9 : Nat) >>> 3) &&& 1 :=
  C6_page_decode_amended 9 (by rfl)

/-- C8: for every offset mapping whose virtual and physical windows fit in
32 bits without wraparound and every virtual address inside the (inclusive)
virtual window, converting to a physical address and back returns the
original address. -/
theorem C8_offset_mapping_roundtrip (m : OffsetMapping) (v : Nat)
    (hv32 : m.virt_start + m.size < 2 ^ 32) (hp32 : m.phys_start + m.size < 2 ^ 32)
    (h1 : m.virt_start ≤ v) (h2 : v ≤ m.virt_start + m.size) :
    (m.convert_virt_addr v).bind m.convert_phys_addr = Except.ok v := by
  have hvmod : (m.virt_start + m.size) % 2 ^ 32 = m.virt_start + m.size :=
    Nat.mod_eq_of_lt hv32
  have hpmod : (m.phys_start + m.size) % 2 ^ 32 = m.phys_start + m.size :=
    Nat.mod_eq_of_lt hp32
  have hin : m.virt_addr_in_range v = true := by
    unfold OffsetMapping.virt_addr_in_range
    rw [hvmod, if_neg (by omega), if_neg (by omega)]
  have hpdmod : (m.phys_start + (v - m.virt_start)) % 2 ^ 32 =
      m.phys_start + (v - m.virt_start) := Nat.mod_eq_of_lt (by omega)
  have hinp : m.phys_addr_in_range (m.phys_start + (v - m.virt_start)) = true := by
    unfold OffsetMapping.phys_addr_in_range
    rw [hpmod, if_neg (by omega), if_neg (by omega)]
  unfold OffsetMapping.convert_virt_addr
  rw [hin]
  simp only [Bool.not_true, Bool.false_eq_true, if_false, hpdmod, Except.bind]
  unfold OffsetMapping.convert_phys_addr
  rw [hinp]
  simp only [Bool.not_true, Bool.false_eq_true, if_false]
  have : m.virt_start + (m.phys_start + (v - m.virt_start) - m.phys_start) = v := by
    omega
  rw [this, Nat.mod_eq_of_lt (by omega)]


/-- Witness for C8: spec scenario 3, the mapping
`(virt 0x8000_0000, phys 0, size 0x1000_0000)` at `v = 0x8000_1000`. -/
theorem C8_offset_mapping_roundtrip_witness :
    ((OffsetMapping.mk 0x80000000 0 0x10000000).convert_virt_addr 0x80001000).bind
      (OffsetMapping.mk 0x80000000 0 0x10000000).convert_phys_addr =
      Except.ok 0x80001000 :=
  C8_offset_mapping_roundtrip ⟨0x80000000, 0, 0x10000000⟩ 0x80001000
    (by norm_num) (by norm_num) (by norm_num) (by norm_num)

/-- Characterization of the inner loop of `do_mapping`: starting at `index`
with `rem` iterations left, it succeeds and writes one section descriptor per
iteration at table slots `tt_index + j`, leaving every other slot unchanged. -/
theorem write_sections_spec (device_base a tt_index : Nat)
    (hdb : device_base &&& 0xfffff = 0)
    (hdb32 : device_base + 0x100000 * 15 < 2 ^ 32) :
    ∀ (rem index : Nat) (table : Nat → Nat), index + rem ≤ 15 →
      ∃ t', DeviceVmemMapper.write_sections device_base a tt_index index rem table =
          Except.ok t' ∧
        (∀ j, index ≤ j → j < index + rem →
          t' (tt_index + j) = MemoryAttributes.to_table_descriptor a
              TranslationTableType.Section ||| (device_base + 0x100000 * j)) ∧
        (∀ k, (∀ j, index ≤ j → j < index + rem → k ≠ tt_index + j) →
          t' k = table k) := by
  have hdbm : device_base % 2 ^ 20 = 0 := by
    rw [show (0xfffff : Nat) = 2 ^ 20 - 1 by norm_num,
      Nat.and_pow_two_sub_one_eq_mod] at hdb
    exact hdb
  intro rem
  induction rem with
  | zero =>
    intro index table h
    refine ⟨table, rfl, ?_, ?_⟩
    · intro j hj1 hj2; omega
    · intro k _; rfl
  | succ r ih =>
    intro index table h
    have hmod : (device_base + 0x100000 * index) % 2 ^ 32 =
        device_base + 0x100000 * index := Nat.mod_eq_of_lt (by omega)
    have halign : is_aligned ((device_base + 0x100000 * index) % 2 ^ 32)
        TranslationTableType.Section.align = true := by
      rw [is_aligned_iff, hmod]
      simp only [TranslationTableType.align]
      rw [show (0xfffff : Nat) = 2 ^ 20 - 1 by norm_num,
        Nat.and_pow_two_sub_one_eq_mod]
      omega
    obtain ⟨t', hok, hent, hpres⟩ :=
      ih (index + 1) (Function.update table (tt_index + index)
        (MemoryAttributes.to_table_descriptor a TranslationTableType.Section |||
          ((device_base + 0x100000 * index) % 2 ^ 32))) (by omega)
    refine ⟨t', ?_, ?_, ?_⟩
    · simp only [DeviceVmemMapper.write_sections,
        tt_new_ok TranslationTableType.Section _ a (by decide) halign]
      exact hok
    · intro j hj1 hj2
      rcases Nat.eq_or_lt_of_le hj1 with hj | hj
      · rw [← hj]
        rw [hpres (tt_index + index) (by intro j' hj1' hj2'; omega),
          Function.update_same, hmod]
      · exact hent j (by omega) (by omega)
    · intro k hk
      rw [hpres k (by intro j hj1 hj2; exact hk j (by omega) (by omega)),
        Function.update_noteq (by exact hk index (by omega) (by omega))]

/-- Characterization of the outer loop of `do_mapping`: one 16MB slot of 15
one-MB sections per device byte, in list order, everything else unchanged. -/
theorem do_mapping_go_spec :
    ∀ (f : List Nat) (b : Nat) (table : Nat → Nat),
      b &&& 0xffffff = 0 → b < 2 ^ 32 → (∀ x ∈ f, x < 256) →
      b >>> 20 + 16 * f.length ≤ 4096 →
      ∃ T', DeviceVmemMapper.do_mapping_go f b table = Except.ok T' ∧
        (∀ i, ∀ hi : i < f.length, ∀ j, j < 15 →
          T' (b >>> 20 + 16 * i + j) =
            MemoryAttributes.to_table_descriptor
              DeviceVmemMapper.do_mapping_attributes TranslationTableType.Section |||
              ((f.get ⟨i, hi⟩) <<< 24 + 0x100000 * j)) ∧
        (∀ k, (∀ i j, i < f.length → j < 15 → k ≠ b >>> 20 + 16 * i + j) →
          T' k = table k) := by
  intro f
  induction f with
  | nil =>
    intro b table _ _ _ _
    refine ⟨table, rfl, ?_, fun k _ => rfl⟩
    intro i hi
    exact absurd hi (by simp)
  | cons x rest ih =>
    intro b table hb hb32 hf hrange
    have hx : x < 256 := hf x (List.mem_cons_self x rest)
    have hbm : b % 2 ^ 24 = 0 := by
      rw [show (0xffffff : Nat) = 2 ^ 24 - 1 by norm_num,
        Nat.and_pow_two_sub_one_eq_mod] at hb
      exact hb
    have hsh : ∀ y : Nat, y >>> 20 = y / 2 ^ 20 := fun y =>
      Nat.shiftRight_eq_div_pow y 20
    have hlen : (x :: rest).length = rest.length + 1 := rfl
    rw [hsh, hlen] at hrange
    have hxsh : x <<< 24 = x * 2 ^ 24 := Nat.shiftLeft_eq x 24
    have hdb : (x <<< 24) &&& 0xfffff = 0 := by
      rw [hxsh, show (0xfffff : Nat) = 2 ^ 20 - 1 by norm_num,
        Nat.and_pow_two_sub_one_eq_mod]
      omega
    have hdb32 : (x <<< 24) + 0x100000 * 15 < 2 ^ 32 := by
      rw [hxsh]; omega
    have htt : VirtualAddress.translation_table_index b = b >>> 20 := rfl
    obtain ⟨t1, hok1, hent1, hpres1⟩ :=
      write_sections_spec (x <<< 24) DeviceVmemMapper.do_mapping_attributes
        (VirtualAddress.translation_table_index b) hdb hdb32 15 0 table (by omega)
    set b' := (b + 0x1000000) % 2 ^ 32 with hb'def
    have hb' : b' &&& 0xffffff = 0 := by
      rw [show (0xffffff : Nat) = 2 ^ 24 - 1 by norm_num,
        Nat.and_pow_two_sub_one_eq_mod, hb'def]
      omega
    have hb32' : b' < 2 ^ 32 := Nat.mod_lt _ (by norm_num)
    have hrange' : b' >>> 20 + 16 * rest.length ≤ 4096 := by
      rw [hsh, hb'def]
      omega
    obtain ⟨T', hok2, hent2, hpres2⟩ := ih b' t1 hb' hb32'
      (fun y hy => hf y (List.mem_cons_of_mem x hy)) hrange'
    have hstep : rest.length = 0 ∨ b' >>> 20 = b >>> 20 + 16 := by
      rw [hsh, hsh, hb'def]
      omega
    refine ⟨T', ?_, ?_, ?_⟩
    · simp only [DeviceVmemMapper.do_mapping_go]
      rw [hok1]
      exact hok2
    · intro i hi j hj
      cases i with
      | zero =>
        have hidx : b >>> 20 + 16 * 0 + j = b >>> 20 + j := by omega
        rw [hidx]
        rw [hpres2 (b >>> 20 + j) ?side0]
        case side0 =>
          intro i' j' hi' hj'
          rcases hstep with hr | hr
          · omega
          · rw [hr]; omega
        have := hent1 j (by omega) (by omega)
        rw [htt] at this
        exact this
      | succ i' =>
        have hi'' : i' < rest.length := by
          rw [hlen] at hi; omega
        have heq : b' >>> 20 = b >>> 20 + 16 := by
          rcases hstep with hr | hr
          · omega
          · exact hr
        have hidx : b >>> 20 + 16 * (i' + 1) + j = b' >>> 20 + 16 * i' + j := by
          omega
        rw [hidx]
        exact hent2 i' hi'' j hj
    · intro k hk
      rw [hpres2 k ?s1, hpres1 k ?s2]
      case s1 =>
        intro i' j' hi' hj'
        rcases hstep with hr | hr
        · omega
        · have := hk (i' + 1) j' (by rw [hlen]; omega) hj'
          rw [hr]
          omega
      case s2 =>
        intro j hj1 hj2
        have := hk 0 j (by rw [hlen]; omega) (by omega)
        rw [htt]
        omega

/-- C7: for a mapper with 16MB-aligned u32 base (with the whole mapped range
inside the 4096-entry table, the regime where the Rust indexing cannot
panic), a successful `do_mapping` writes, for each list position `i`, exactly
the 15 `Section` descriptors at the table indices of
`base + i*16MB + j*1MB` for `j < 15`, the `j`-th being the descriptor built
from physical base `(f[i] << 24) + j*0x10_0000` with attributes
`AP::PrivAccess + XN::Enable`, and leaves every other entry — in particular
the 16th 1MB entry of each 16MB slot — unchanged. -/
theorem C7_do_mapping_spec (m : DeviceVmemMapper) (table T' : Nat → Nat)
    (hb : is_aligned m.base_address 0xffffff = true) (hb32 : m.base_address < 2 ^ 32)
    (hf : ∀ x ∈ m.device_base_addresses, x < 256)
    (hrange : m.base_address >>> 20 + 16 * m.device_base_addresses.length ≤ 4096)
    (hok : m.do_mapping table = Except.ok T') :
    (∀ i, ∀ hi : i < m.device_base_addresses.length, ∀ j, j < 15 →
      ∃ d, TranslationTableDescriptor.new TranslationTableType.Section
          ((m.device_base_addresses.get ⟨i, hi⟩) <<< 24 + 0x100000 * j)
          DeviceVmemMapper.do_mapping_attributes = Except.ok d ∧
        T' (VirtualAddress.translation_table_index
            (m.base_address + 0x1000000 * i + 0x100000 * j)) = d) ∧
    (∀ k, (∀ i j, i < m.device_base_addresses.length → j < 15 →
        k ≠ m.base_address >>> 20 + 16 * i + j) → T' k = table k) := by
  have hb0 : m.base_address &&& 0xffffff = 0 := (is_aligned_iff _ _).mp hb
  have hbm : m.base_address % 2 ^ 24 = 0 := by
    rw [show (0xffffff : Nat) = 2 ^ 24 - 1 by norm_num,
      Nat.and_pow_two_sub_one_eq_mod] at hb0
    exact hb0
  obtain ⟨T'', hok', hent, hpres⟩ :=
    do_mapping_go_spec m.device_base_addresses m.base_address table hb0 hb32 hf hrange
  unfold DeviceVmemMapper.do_mapping at hok
  rw [hok] at hok'
  have hTT : T'' = T' := (Except.ok.injEq _ _).mp hok'.symm
  subst hTT
  constructor
  · intro i hi j hj
    have hg : m.device_base_addresses.get ⟨i, hi⟩ < 256 :=
      hf _ (m.device_base_addresses.get_mem _ _)
    have halign : is_aligned
        ((m.device_base_addresses.get ⟨i, hi⟩) <<< 24 + 0x100000 * j)
        TranslationTableType.Section.align = true := by
      rw [is_aligned_iff]
      simp only [TranslationTableType.align]
      rw [Nat.shiftLeft_eq, show (0xfffff : Nat) = 2 ^ 20 - 1 by norm_num,
        Nat.and_pow_two_sub_one_eq_mod]
      omega
    refine ⟨_, tt_new_ok TranslationTableType.Section _ _ (by decide) halign, ?_⟩
    have hidx : VirtualAddress.translation_table_index
        (m.base_address + 0x1000000 * i + 0x100000 * j) =
        m.base_address >>> 20 + 16 * i + j := by
      unfold VirtualAddress.translation_table_index
      rw [Nat.shiftRight_eq_div_pow, Nat.shiftRight_eq_div_pow]
      omega
    rw [hidx]
    exact hent i hi j hj
  · exact hpres

/-- Witness for C7: the mapper of spec scenario 4 on the all-zero table; entry
`i = 0, j = 3` holds the expected section descriptor and the 16th slot entry
(index 0x90f) is untouched. -/
theorem C7_do_mapping_spec_witness :
    ∃ T', DeviceVmemMapper.do_mapping ⟨0x90000000, [0x3f]⟩ (fun _ => 0) =
        Except.ok T' ∧
      (∃ d, TranslationTableDescriptor.new TranslationTableType.Section
          (0x3f <<< 24 + 0x100000 * 3) DeviceVmemMapper.do_mapping_attributes =
          Except.ok d ∧
        T' (VirtualAddress.translation_table_index
            (0x90000000 + 0x1000000 * 0 + 0x100000 * 3)) = d) ∧
      T' 0x90f = 0 := by
  obtain ⟨T', hT'⟩ : ∃ T',
      DeviceVmemMapper.do_mapping ⟨0x90000000, [0x3f]⟩ (fun _ => 0) =
        Except.ok T' := ⟨_, rfl⟩
  have spec := C7_do_mapping_spec ⟨0x90000000, [0x3f]⟩ (fun _ => 0) T' (by decide) (by norm_num)
    (by decide) (by decide) hT'
  refine ⟨T', hT', spec.1 0 (by decide) 3 (by decide), ?_⟩
  refine spec.2 0x90f ?_
  intro i j hi hj
  have hproj : (DeviceVmemMapper.mk 0x90000000 [0x3f]).base_address = 0x90000000 := rfl
  have hlen : (DeviceVmemMapper.mk 0x90000000 [0x3f]).device_base_addresses.length = 1 :=
    rfl
  rw [hproj, (by decide : (0x90000000 : Nat) >>> 20 = 0x900)]
  rw [hlen] at hi
  omega
